import Mathlib

/-!
Shallow embedding of the IPAM address-space engine
(`src/engine/app/routers/space.py`) and proofs about its allocation,
validation and deletion logic.

Address sets (`netaddr.IPSet`) are modelled as `Finset ℕ` of IPv4
addresses; a CIDR (`netaddr.IPNetwork`) is a network address plus a
prefix length, denoting the half-open interval of its addresses.
-/

set_option maxRecDepth 100000
set_option maxHeartbeats 2000000

namespace Ipam

/-- An IPv4 CIDR: network address and prefix length
(`netaddr.IPNetwork`). -/
structure Cidr where
  network : Nat
  prefixlen : Nat
deriving DecidableEq, Repr

/-- Number of addresses in the CIDR (`IPNetwork.size`). -/
def Cidr.size (c : Cidr) : Nat := 2 ^ (32 - c.prefixlen)

/-- The set of addresses covered by a CIDR. -/
def cidrSet (c : Cidr) : Finset Nat := Finset.Ico c.network (c.network + c.size)

/-- Union of the address sets of a list of CIDRs (the set denoted by
`netaddr.IPSet(list_of_cidrs)`). -/
def ipSet (cs : List Cidr) : Finset Nat := cs.foldr (fun c t => cidrSet c ∪ t) ∅

/-- Containment test `IPNetwork(x) in IPNetwork(b)`: the range of `x`
lies fully within the range of `b`. -/
def cidrIn (x b : Cidr) : Bool :=
  b.network ≤ x.network && x.network + x.size ≤ b.network + b.size

/-- Symmetric difference of two address sets (`IPSet.__xor__`, used as
the expression `block_set ^ reserved_set`). -/
def setXor (s t : Finset Nat) : Finset Nat := (s \ t) ∪ (t \ s)

/-- The free set `available_set = block_set ^ reserved_set` for a block
range and a list of consumed CIDRs. -/
def availableSet (blockCidr : Cidr) (consumed : List Cidr) : Finset Nat :=
  setXor (cidrSet blockCidr) (ipSet consumed)

/-- Validity of exponent `k` for the block `netaddr` emits at the
lowest remaining address `a` during CIDR decomposition: the
power-of-two block of size `2 ^ k` starting at `a` is aligned and lies
fully inside `s`.  The size guard `2 ^ k ≤ s.card` is implied by the
subset test and only prunes the search. -/
def goodPow (s : Finset Nat) (a : Nat) (k : Nat) : Bool :=
  a % 2 ^ k == 0 && 2 ^ k ≤ s.card && decide (Finset.Ico a (a + 2 ^ k) ⊆ s)

/-- Largest valid exponent, searched from above. -/
def maxPow (s : Finset Nat) (a : Nat) : Nat :=
  (((List.range 33).reverse).find? (goodPow s a)).getD 0

/-- The maximal CIDR starting at address `a` inside `s`. -/
def maxBlockAt (s : Finset Nat) (a : Nat) : Cidr := ⟨a, 32 - maxPow s a⟩

/-- Fuelled greedy CIDR decomposition: repeatedly emit the maximal
aligned block at the least remaining address. -/
def iterCidrsAux : Nat → Finset Nat → List Cidr
  | 0, _ => []
  | fuel + 1, s =>
    if h : s.Nonempty then
      let c := maxBlockAt s (s.min' h)
      c :: iterCidrsAux fuel (s \ cidrSet c)
    else []

/-- Decomposition `IPSet.iter_cidrs()`: the maximal constituent CIDRs
of an address set in ascending address order.  `s.card` steps of fuel suffice since
every step removes at least the minimal element. -/
def iterCidrs (s : Finset Nat) : List Cidr := iterCidrsAux s.card s

/-- Subnetting `IPNetwork.subnet(n)`: the sub-CIDRs of prefix length
`n`, in ascending address order. -/
def subnetList (c : Cidr) (n : Nat) : List Cidr :=
  (List.range (2 ^ (n - c.prefixlen))).map
    (fun i => ⟨c.network + i * 2 ^ (32 - n), n⟩)

/-- Indexing `list(...)[next_selector]` with `next_selector = -1 if
reverse_search else 0`. -/
def selectSubnet (l : List Cidr) (reverse_search : Bool) : Option Cidr :=
  if reverse_search then l.getLast? else l.head?

/-- Body of `BlockCIDRReq` / the allocation-relevant part of
`SpaceCIDRReq`: requested mask bits and the two policy flags. -/
structure BlockCIDRReq where
  size : Nat
  reverse_search : Bool
  smallest_cidr : Bool
deriving DecidableEq, Repr

/-- Errors of the allocation code paths.  `exhausted` is the
`HTTPException(500, "Network of requested size unavailable...")`;
`valueError` is the uncaught Python `ValueError` raised by `max()` on
an empty sequence; `indexError` would be Python's `IndexError` from
indexing an empty subnet list; `invalidBlocks` is the
`"Invalid Block(s) in Block list"` rejection of the multi-block
endpoint; `noneTypeFault` is the `TypeError`/`AttributeError` of
operating on a `None` lookup result. -/
inductive AllocError where
  | exhausted
  | valueError
  | indexError
  | invalidBlocks
  | noneTypeFault
deriving DecidableEq, Repr

/-- Slicing `available_set.iter_cidrs()[available_slicer]` with
`available_slicer = slice(None, None, -1) if req.reverse_search else
slice(None)`. -/
def slicedCidrs (avail : List Cidr) (req : BlockCIDRReq) : List Cidr :=
  if req.reverse_search then avail.reverse else avail

/-- The list `cidr_list` of the `smallest_cidr` branch: surviving
candidates after the mask filter, in sliced order. -/
def smallestCandidates (avail : List Cidr) (req : BlockCIDRReq) : List Cidr :=
  (slicedCidrs avail req).filter (fun x => x.prefixlen ≤ req.size)

/-- Candidate selection of `create_block_reservation` /
`create_multi_block_reservation` (the `if req.smallest_cidr` branch
and its `else`): choose `available_block` among the maximal free
CIDRs, or fail.  An `Except.error .exhausted` corresponds to
`available_block` ending up `None`; `min_mask` is the name the code
gives to the largest surviving prefix length. -/
def pickAvailable (avail : List Cidr) (req : BlockCIDRReq) : Except AllocError Cidr :=
  if req.smallest_cidr then
    match ((smallestCandidates avail req).map (fun x => x.prefixlen)).max? with
    | none => Except.error AllocError.valueError
    | some min_mask =>
      match ((smallestCandidates avail req).filter
          (fun network => network.prefixlen == min_mask)).head? with
      | some net => Except.ok net
      | none => Except.error AllocError.exhausted
  else
    match ((slicedCidrs avail req).filter (fun net => net.prefixlen ≤ req.size)).head? with
    | some net => Except.ok net
    | none => Except.error AllocError.exhausted

/-- The single-block CIDR allocator: lines 1219–1236 of `space.py`
(free-set computation, candidate selection, subnetting, first/last
selection). -/
def allocateCidr (blockCidr : Cidr) (consumed : List Cidr) (req : BlockCIDRReq) :
    Except AllocError Cidr :=
  match pickAvailable (iterCidrs (availableSet blockCidr consumed)) req with
  | Except.error e => Except.error e
  | Except.ok available_block =>
    match selectSubnet (subnetList available_block req.size) req.reverse_search with
    | some next_cidr => Except.ok next_cidr
    | none => Except.error AllocError.indexError

/-! Data model: spaces, blocks, attachments (vNets), reservations. -/

/-- ASCII lowercase of a string, modelling Python's `str.lower()` on
the alphanumeric names this code handles. -/
def strLower (s : String) : String := ⟨s.data.map Char.toLower⟩

/-- A reservation record as appended by the reservation endpoints
(`id`, `cidr`, `userId`, `createdOn`, `status`). -/
structure Reservation where
  id : String
  cidr : Cidr
  userId : String
  createdOn : Nat
  status : String
deriving DecidableEq, Repr

/-- An attachment reference stored in a block's `vnets` list. -/
structure VNetRef where
  id : String
  active : Bool
deriving DecidableEq, Repr

/-- An entry of the external network directory (`arg_query` result):
resource id and its resolved address prefixes. -/
structure VNetData where
  id : String
  prefixes : List Cidr
deriving DecidableEq, Repr

/-- A block embedded in a space document. -/
structure Block where
  name : String
  cidr : Cidr
  vnets : List VNetRef
  resv : List Reservation
deriving DecidableEq, Repr

/-- A space document (tenant scoping is implicit: every list of spaces
in this file is the query result for one tenant). -/
structure Space where
  name : String
  desc : String
  blocks : List Block
deriving DecidableEq, Repr

/-- Resolved in-block prefixes of one attachment: look up the vNet in
the external directory by id (case-insensitively) and keep the
prefixes lying within the block range; a missing vNet contributes
nothing. -/
def clippedPrefixes (vnetList : List VNetData) (blockCidr : Cidr) (v : VNetRef) : List Cidr :=
  match vnetList.find? (fun x => strLower x.id == strLower v.id) with
  | some target => target.prefixes.filter (fun x => cidrIn x blockCidr)
  | none => []

/-- Accumulation over a block's `vnets` list, as in the
`for v in target_block['vnets']` loops. -/
def clippedVnetCidrs (vnetList : List VNetData) (tb : Block) : List Cidr :=
  tb.vnets.foldl (fun acc v => acc ++ clippedPrefixes vnetList tb.cidr v) []

/-- Consumed set `block_all_cidrs` of a block: its attachments'
in-block prefixes followed by its reservations' CIDRs. -/
def blockAllCidrs (vnetList : List VNetData) (tb : Block) : List Cidr :=
  clippedVnetCidrs vnetList tb ++ tb.resv.map (fun r => r.cidr)

/-- Endpoint `create_block_reservation` (lines 1172–1258), from the
point where the target block has been found: compute the consumed set
and allocate.  On success the returned CIDR is the one recorded in the
new reservation. -/
def create_block_reservation (tb : Block) (vnetList : List VNetData) (req : BlockCIDRReq) :
    Except AllocError Cidr :=
  allocateCidr tb.cidr (blockAllCidrs vnetList tb) req

/-- Request body of the multi-block reservation endpoint. -/
structure SpaceCIDRReq where
  blocks : List String
  size : Nat
  reverse_search : Bool
  smallest_cidr : Bool
deriving DecidableEq, Repr

/-- The allocation-relevant part of a `SpaceCIDRReq`. -/
def SpaceCIDRReq.toBlockReq (req : SpaceCIDRReq) : BlockCIDRReq :=
  ⟨req.size, req.reverse_search, req.smallest_cidr⟩

/-- The `for block in req.blocks` loop of
`create_multi_block_reservation` (lines 588–613), carrying
`available_block` (paired with `available_block_name`) as the
accumulator; once it is set the loop body is skipped.  A block whose
candidate selection leaves `available_block = None` is skipped; the
uncaught `ValueError` of the `smallest_cidr` branch aborts the whole
loop. -/
def multiLoopGo (space : List Block) (vnetList : List VNetData) (req : BlockCIDRReq) :
    Option (String × Cidr) → List String → Except AllocError (Option (String × Cidr))
  | acc, [] => Except.ok acc
  | acc, b :: rest =>
    match acc with
    | some _ => multiLoopGo space vnetList req acc rest
    | none =>
      match space.find? (fun x => strLower x.name == strLower b) with
      | none => Except.error AllocError.noneTypeFault
      | some target_block =>
        match pickAvailable
            (iterCidrs (availableSet target_block.cidr (blockAllCidrs vnetList target_block)))
            req with
        | Except.ok ab => multiLoopGo space vnetList req (some (b, ab)) rest
        | Except.error AllocError.valueError => Except.error AllocError.valueError
        | Except.error _ => multiLoopGo space vnetList req none rest

/-- Endpoint `create_multi_block_reservation` (lines 543–640), from
the point where the target space has been found: validate the
requested block names (exact-name set difference), run the first-fit
loop, subnet the selected candidate.  On success it returns the chosen
block's name and the reserved CIDR. -/
def create_multi_block_reservation (space : List Block) (vnetList : List VNetData)
    (req : SpaceCIDRReq) : Except AllocError (String × Cidr) :=
  if req.blocks.all (fun b => space.any (fun x => x.name == b)) then
    match multiLoopGo space vnetList req.toBlockReq none req.blocks with
    | Except.error e => Except.error e
    | Except.ok none => Except.error AllocError.exhausted
    | Except.ok (some (name, available_block)) =>
      match selectSubnet (subnetList available_block req.size) req.reverse_search with
      | some next_cidr => Except.ok (name, next_cidr)
      | none => Except.error AllocError.indexError
  else Except.error AllocError.invalidBlocks

/-- Spec-side comparator for the multi-block variant, following the
spec's words: evaluate the candidate blocks in the given order,
compute the consumed set fresh per block from that block's own data,
and return the first block whose single-block allocation is
non-exhausted, with no further block considered. -/
def firstFitAllocation (space : List Block) (vnetList : List VNetData) (req : SpaceCIDRReq) :
    List String → Option (String × Cidr)
  | [] => none
  | b :: rest =>
    match space.find? (fun x => strLower x.name == strLower b) with
    | none => firstFitAllocation space vnetList req rest
    | some tb =>
      match create_block_reservation tb vnetList req.toBlockReq with
      | Except.ok c => some (b, c)
      | Except.error _ => firstFitAllocation space vnetList req rest

/-- Errors of the non-allocation endpoints modelled below. -/
inductive ApiError where
  | conflict
  | formatError
  | invalidSpace
  | invalidBlock
  | nonEmptyError
  | duplicateIds
  | invalidIds
  | permissionError
  | duplicateVnet
  | invalidVnet
  | notInBlock
  | overlap
  | noneIndexFault
deriving DecidableEq, Repr

/-- Endpoint `create_space` (lines 174–207): reject a
case-insensitively duplicate name, else append the new empty space. -/
def create_space (spaces : List Space) (name desc : String) : Except ApiError (List Space) :=
  match spaces.find? (fun x => strLower x.name == strLower name) with
  | some _ => Except.error ApiError.conflict
  | none => Except.ok (spaces ++ [⟨name, desc, []⟩])

/-- Validation pattern of the allowed `replace /name` patch op in
`scrub_space_patch`: 1–16 alphanumeric characters. -/
def valid_space_name (v : String) : Bool :=
  1 ≤ v.data.length && v.data.length ≤ 16 && v.data.all Char.isAlphanum

/-- Replacement of the first case-insensitive match, modelling
`cosmos_replace(space_query[0], update_space)` after the patched
document was built from the first query result. -/
def replaceFirstName : List Space → String → String → List Space
  | [], _, _ => []
  | s :: rest, target, newName =>
    if strLower s.name == strLower target then { s with name := newName } :: rest
    else s :: replaceFirstName rest target newName

/-- Endpoint `update_space` (lines 312–353) restricted to a single
`replace /name` patch: find the space case-insensitively, scrub the
patch (format check only), apply it and replace the document. -/
def update_space (spaces : List Space) (space newName : String) : Except ApiError (List Space) :=
  if (spaces.find? (fun x => strLower x.name == strLower space)).isSome then
    if valid_space_name newName then Except.ok (replaceFirstName spaces space newName)
    else Except.error ApiError.formatError
  else Except.error ApiError.invalidSpace

/-- Endpoint `create_block` (lines 491–531), from the point where the
target space has been found: reject when the new CIDR overlaps the
union of the sibling block CIDRs, else append the new block. -/
def create_block (blocks : List Block) (name : String) (cidr : Cidr) :
    Except ApiError (List Block) :=
  let block_cidrs := ipSet (blocks.map (fun x => x.cidr))
  if decide ((cidrSet cidr ∩ block_cidrs).Nonempty) then Except.error ApiError.overlap
  else Except.ok (blocks ++ [⟨name, cidr, [], []⟩])

/-- Endpoint `create_block_vnet` (lines 906–970), from the point where
the target block has been found: reject duplicate attachment ids,
unknown vNets and vNets with no in-block prefix; take the first
in-block prefix as `target_cidr` and reject when it overlaps the
accumulated in-block prefixes of the already attached vNets; else
append the attachment. -/
def create_block_vnet (tb : Block) (vnetList : List VNetData) (vnetId : String) :
    Except ApiError Block :=
  if (tb.vnets.map (fun v => v.id)).contains vnetId then Except.error ApiError.duplicateVnet
  else
    match vnetList.find? (fun x => strLower x.id == strLower vnetId) with
    | none => Except.error ApiError.invalidVnet
    | some target_vnet =>
      match target_vnet.prefixes.find? (fun x => cidrIn x tb.cidr) with
      | none => Except.error ApiError.notInBlock
      | some target_cidr =>
        if decide ((ipSet (clippedVnetCidrs vnetList tb) ∩ cidrSet target_cidr).Nonempty) then
          Except.error ApiError.overlap
        else Except.ok { tb with vnets := tb.vnets ++ [⟨vnetId, true⟩] }

/-- Endpoint `delete_block` (lines 743–778), from the point where the
target space has been found: look the block up case-insensitively,
apply the emptiness check unless forced, then compute the removal
index by exact name equality; a `None` index makes
`del target_space['blocks'][index]` raise `TypeError`
(`noneIndexFault`). -/
def delete_block (blocks : List Block) (blockName : String) (force : Bool) :
    Except ApiError (List Block) :=
  match blocks.find? (fun x => strLower x.name == strLower blockName) with
  | none => Except.error ApiError.invalidBlock
  | some target_block =>
    if !force && (0 < target_block.vnets.length || 0 < target_block.resv.length) then
      Except.error ApiError.nonEmptyError
    else
      match blocks.findIdx? (fun item => item.name == blockName) with
      | none => Except.error ApiError.noneIndexFault
      | some index => Except.ok (blocks.eraseIdx index)

/-- Endpoint `delete_block_reservations` (lines 1269–1321), from the
point where the target block has been found: reject duplicate ids,
unknown ids, and (for non-admins) any targeted reservation not owned
by the caller; only then remove the targeted reservations one by one.
An error result leaves the stored reservation list unchanged (nothing
is written). -/
def delete_block_reservations (resv : List Reservation) (req : List String)
    (user_name : String) (is_admin : Bool) : Except ApiError (List Reservation) :=
  if req.dedup.length != req.length then Except.error ApiError.duplicateIds
  else
    let current_reservations := resv.map (fun o => o.id)
    if !(req.all (fun elem => current_reservations.contains elem)) then
      Except.error ApiError.invalidIds
    else
      if !is_admin &&
          !(resv.filter (fun x => req.contains x.id && x.userId != user_name)).isEmpty then
        Except.error ApiError.permissionError
      else
        Except.ok (req.foldl (fun lst id => lst.eraseP (fun item => item.id == id)) resv)

/-- Case-insensitive uniqueness of sibling names (spec invariant 4),
for spaces within a tenant. -/
def spaceNamesCIUnique (spaces : List Space) : Prop :=
  (spaces.map (fun x => strLower x.name)).Nodup

instance (spaces : List Space) : Decidable (spaceNamesCIUnique spaces) :=
  inferInstanceAs (Decidable (List.Nodup _))

deriving instance DecidableEq for Except

/-! Lemmas about the CIDR set algebra. -/

theorem ipSet_cons (c : Cidr) (t : List Cidr) : ipSet (c :: t) = cidrSet c ∪ ipSet t := rfl

theorem cidrSet_subset_ipSet {d : Cidr} :
    ∀ {l : List Cidr}, d ∈ l → cidrSet d ⊆ ipSet l := by
  intro l
  induction l with
  | nil => intro h; cases h
  | cons c t ih =>
    intro hd x hx
    rw [ipSet_cons, Finset.mem_union]
    rcases List.mem_cons.mp hd with h | h
    · exact Or.inl (h ▸ hx)
    · exact Or.inr (ih h hx)

theorem mem_ipSet {x : Nat} : ∀ {l : List Cidr}, x ∈ ipSet l ↔ ∃ c ∈ l, x ∈ cidrSet c := by
  intro l
  induction l with
  | nil => simp [ipSet]
  | cons c t ih => rw [ipSet_cons]; simp [Finset.mem_union, ih]

theorem goodPow_sound {s : Finset Nat} {a k : Nat} (h : goodPow s a k = true) :
    Finset.Ico a (a + 2 ^ k) ⊆ s := by
  unfold goodPow at h
  simp only [Bool.and_eq_true, decide_eq_true_eq] at h
  exact h.2

theorem maxPow_le (s : Finset Nat) (a : Nat) : maxPow s a ≤ 32 := by
  unfold maxPow
  cases h : List.find? (goodPow s a) (List.range 33).reverse with
  | none => simp
  | some k =>
    have hk := List.mem_of_find?_eq_some h
    rw [List.mem_reverse, List.mem_range] at hk
    simp only [Option.getD_some]
    omega

theorem maxPow_spec (s : Finset Nat) (a : Nat) (ha : a ∈ s) :
    Finset.Ico a (a + 2 ^ maxPow s a) ⊆ s := by
  unfold maxPow
  cases h : List.find? (goodPow s a) (List.range 33).reverse with
  | none =>
    simp only [Option.getD_none, pow_zero]
    intro x hx
    rw [Finset.mem_Ico] at hx
    have hxa : x = a := by omega
    rwa [hxa]
  | some k =>
    simp only [Option.getD_some]
    exact goodPow_sound (List.find?_some h)

theorem cidrSet_maxBlockAt_subset {s : Finset Nat} {a : Nat} (ha : a ∈ s) :
    cidrSet (maxBlockAt s a) ⊆ s := by
  have h1 : maxPow s a ≤ 32 := maxPow_le s a
  have h2 : 32 - (32 - maxPow s a) = maxPow s a := by omega
  simp only [maxBlockAt, cidrSet, Cidr.size, h2]
  exact maxPow_spec s a ha

theorem iterCidrsAux_sound :
    ∀ (fuel : Nat) (s : Finset Nat) (c : Cidr), c ∈ iterCidrsAux fuel s → cidrSet c ⊆ s := by
  intro fuel
  induction fuel with
  | zero => intro s c h; simp [iterCidrsAux] at h
  | succ n ih =>
    intro s c h
    rw [iterCidrsAux] at h
    by_cases hs : s.Nonempty
    · rw [dif_pos hs] at h
      rcases List.mem_cons.mp h with h1 | h1
      · exact h1 ▸ cidrSet_maxBlockAt_subset (Finset.min'_mem s hs)
      · exact fun x hx => (Finset.mem_sdiff.mp (ih _ _ h1 hx)).1
    · rw [dif_neg hs] at h; cases h

theorem iterCidrs_sound {s : Finset Nat} {c : Cidr} (h : c ∈ iterCidrs s) : cidrSet c ⊆ s :=
  iterCidrsAux_sound s.card s c h

theorem mem_availableSet {blockCidr : Cidr} {consumed : List Cidr}
    (hsub : ipSet consumed ⊆ cidrSet blockCidr) {x : Nat}
    (hx : x ∈ availableSet blockCidr consumed) :
    x ∈ cidrSet blockCidr ∧ x ∉ ipSet consumed := by
  unfold availableSet setXor at hx
  rw [Finset.mem_union, Finset.mem_sdiff, Finset.mem_sdiff] at hx
  rcases hx with h | h
  · exact h
  · exact absurd (hsub h.1) h.2

theorem mem_of_head?_eq {α : Type} {l : List α} {a : α} (h : l.head? = some a) : a ∈ l :=
  List.mem_of_mem_head? (by simp [h])

theorem mem_of_getLast?_eq {α : Type} : ∀ {l : List α} {a : α}, l.getLast? = some a → a ∈ l := by
  intro l
  induction l with
  | nil => intro a h; simp at h
  | cons b t ih =>
    intro a h
    cases t with
    | nil => simp_all
    | cons c u =>
      rw [List.getLast?_cons_cons] at h
      exact List.mem_cons_of_mem b (ih h)

theorem selectSubnet_mem {l : List Cidr} {rev : Bool} {d : Cidr}
    (h : selectSubnet l rev = some d) : d ∈ l := by
  unfold selectSubnet at h
  by_cases hr : rev
  · rw [if_pos hr] at h; exact mem_of_getLast?_eq h
  · rw [if_neg hr] at h; exact mem_of_head?_eq h

theorem mem_slicedCidrs {avail : List Cidr} {req : BlockCIDRReq} {x : Cidr}
    (hx : x ∈ slicedCidrs avail req) : x ∈ avail := by
  unfold slicedCidrs at hx
  by_cases hr : req.reverse_search
  · rw [if_pos hr, List.mem_reverse] at hx; exact hx
  · rwa [if_neg hr] at hx

theorem mem_smallestCandidates {avail : List Cidr} {req : BlockCIDRReq} {x : Cidr}
    (hx : x ∈ smallestCandidates avail req) : x ∈ avail ∧ x.prefixlen ≤ req.size := by
  unfold smallestCandidates at hx
  rw [List.mem_filter] at hx
  exact ⟨mem_slicedCidrs hx.1, of_decide_eq_true hx.2⟩

theorem pickAvailable_ok {avail : List Cidr} {req : BlockCIDRReq} {ab : Cidr}
    (h : pickAvailable avail req = Except.ok ab) :
    ab ∈ avail ∧ ab.prefixlen ≤ req.size := by
  unfold pickAvailable at h
  by_cases hsm : req.smallest_cidr
  · rw [if_pos hsm] at h
    split at h
    · cases h
    · split at h
      · rename_i net heq2
        cases h
        have hm := mem_of_head?_eq heq2
        exact mem_smallestCandidates (List.mem_filter.mp hm).1
      · cases h
  · rw [if_neg hsm] at h
    split at h
    · rename_i net heq
      cases h
      have hm := mem_of_head?_eq heq
      rw [List.mem_filter] at hm
      exact ⟨mem_slicedCidrs hm.1, of_decide_eq_true hm.2⟩
    · cases h

theorem subnetList_prefixlen {c : Cidr} {n : Nat} {d : Cidr} (h : d ∈ subnetList c n) :
    d.prefixlen = n := by
  unfold subnetList at h
  rw [List.mem_map] at h
  obtain ⟨i, _, hi⟩ := h
  rw [← hi]

theorem subnetList_subset {c : Cidr} {n : Nat} (hc : c.prefixlen ≤ n) (hn : n ≤ 32)
    {d : Cidr} (h : d ∈ subnetList c n) : cidrSet d ⊆ cidrSet c := by
  unfold subnetList at h
  rw [List.mem_map] at h
  obtain ⟨i, hi, hd⟩ := h
  rw [List.mem_range] at hi
  have hup : (i + 1) * 2 ^ (32 - n) ≤ 2 ^ (32 - c.prefixlen) := by
    calc (i + 1) * 2 ^ (32 - n) ≤ 2 ^ (n - c.prefixlen) * 2 ^ (32 - n) :=
          Nat.mul_le_mul_right _ hi
    _ = 2 ^ (n - c.prefixlen + (32 - n)) := (pow_add 2 _ _).symm
    _ = 2 ^ (32 - c.prefixlen) := by congr 1; omega
  rw [← hd]
  simp only [cidrSet, Cidr.size]
  apply Finset.Ico_subset_Ico
  · exact Nat.le_add_right _ _
  · have : i * 2 ^ (32 - n) + 2 ^ (32 - n) = (i + 1) * 2 ^ (32 - n) := by ring
    omega

theorem subnetList_ne_nil (c : Cidr) (n : Nat) : subnetList c n ≠ [] := by
  unfold subnetList
  intro hcon
  have hlen := congrArg List.length hcon
  simp only [List.length_map, List.length_range, List.length_nil] at hlen
  exact absurd hlen (pow_ne_zero _ (by norm_num))

/-- Containment and disjointness of a successful single-block
allocation, at the allocator level. -/
theorem allocateCidr_containment {blockCidr : Cidr} {consumed : List Cidr}
    {req : BlockCIDRReq} {c : Cidr}
    (hsub : ipSet consumed ⊆ cidrSet blockCidr) (hn : req.size ≤ 32)
    (hok : allocateCidr blockCidr consumed req = Except.ok c) :
    c.prefixlen = req.size ∧ cidrSet c ⊆ cidrSet blockCidr ∧
      ∀ d ∈ consumed, ∀ x ∈ cidrSet c, x ∉ cidrSet d := by
  unfold allocateCidr at hok
  split at hok
  · cases hok
  · rename_i ab hpick
    split at hok
    · rename_i d hsel
      cases hok
      obtain ⟨habmem, habsize⟩ := pickAvailable_ok hpick
      have habsub : cidrSet ab ⊆ availableSet blockCidr consumed := iterCidrs_sound habmem
      have hdmem : c ∈ subnetList ab req.size := selectSubnet_mem hsel
      have hdsub : cidrSet c ⊆ cidrSet ab := subnetList_subset habsize hn hdmem
      refine ⟨subnetList_prefixlen hdmem, ?_, ?_⟩
      · intro x hx
        exact (mem_availableSet hsub (habsub (hdsub hx))).1
      · intro e he x hx
        have hfree := (mem_availableSet hsub (habsub (hdsub hx))).2
        exact fun hxe => hfree (cidrSet_subset_ipSet he hxe)
    · cases hok

/-- C1: for every call to the single-block CIDR allocator
(`create_block_reservation`) in which the consumed set (the block's
attachment prefixes clipped to the block range plus its existing
reservation CIDRs) is a subset of the block's range, and for every
combination of the `reverse_search` and `smallest_cidr` flags
(quantified via `req`): if the call succeeds, the returned CIDR has
exactly the requested prefix length, is a subset of the block's CIDR
range, and is disjoint from every entry of the consumed set.
(`req.size ≤ 32` models the IPv4 mask-bits domain of the request
schema.) -/
theorem create_block_reservation_containment (tb : Block) (vnetList : List VNetData)
    (req : BlockCIDRReq) (c : Cidr)
    (hsub : ipSet (blockAllCidrs vnetList tb) ⊆ cidrSet tb.cidr) (hn : req.size ≤ 32)
    (hok : create_block_reservation tb vnetList req = Except.ok c) :
    c.prefixlen = req.size ∧ cidrSet c ⊆ cidrSet tb.cidr ∧
      ∀ d ∈ blockAllCidrs vnetList tb, ∀ x ∈ cidrSet c, x ∉ cidrSet d :=
  allocateCidr_containment hsub hn hok

/-- Witness for C1 at a concrete input: an empty 10.0.0.0/30 block, a
requested /32, default flags. -/
theorem create_block_reservation_containment_witness :
    cidrSet ⟨167772160, 32⟩ ⊆ cidrSet ⟨167772160, 30⟩ :=
  (create_block_reservation_containment ⟨"block1", ⟨167772160, 30⟩, [], []⟩ []
    ⟨32, false, false⟩ ⟨167772160, 32⟩ (by simp [blockAllCidrs, clippedVnetCidrs, ipSet])
    (by norm_num) rfl).2.1

/-- C5: for a block with range 10.0.0.0/24 (address 167772160) and an
empty consumed set, an allocation request with requested length 26 and
`smallest_cidr = false` returns 10.0.0.0/26 when
`reverse_search = false` and returns 10.0.0.192/26 (address
167772352) when `reverse_search = true` (spec Scenarios A and B). -/
theorem scenario_a_b_allocation :
    create_block_reservation ⟨"Block1", ⟨167772160, 24⟩, [], []⟩ [] ⟨26, false, false⟩ =
      Except.ok ⟨167772160, 26⟩ ∧
    create_block_reservation ⟨"Block1", ⟨167772160, 24⟩, [], []⟩ [] ⟨26, true, false⟩ =
      Except.ok ⟨167772352, 26⟩ :=
  ⟨rfl, rfl⟩

/-- C4: for a block with range 10.0.0.0/24 whose consumed set is
exactly 10.0.0.0/26 (one reservation), a request with length 27,
`smallest_cidr = true` and `reverse_search = false` returns
10.0.0.64/27 (address 167772224): the first /27 of the smallest free
constituent block (10.0.0.64/26, the free set being 10.0.0.64/26 ∪
10.0.0.128/25) that still fits a /27 (spec Scenario C). -/
theorem scenario_c_smallest_fit :
    create_block_reservation
      ⟨"Block1", ⟨167772160, 24⟩, [], [⟨"r1", ⟨167772160, 26⟩, "user1", 0, "wait"⟩]⟩ []
      ⟨27, false, true⟩ = Except.ok ⟨167772224, 27⟩ := rfl

/-- C2: for an allocation request in which no maximal constituent
block of the free set fits the requested length, the code fails with
the `AllocationExhausted` error only when `smallest_cidr = false`;
with `smallest_cidr = true` it instead raises an uncaught Python
`ValueError` (`max()` over the empty `cidr_list`), contradicting the
claim that `AllocationExhausted` is raised for every flag combination.
Failing input: block 10.0.0.0/30 with consumed set 10.0.0.0/31, so
the free set's single constituent 10.0.0.2/31 has prefix length 31 >
requested 30. -/
theorem exhaustion_value_error_divergence :
    create_block_reservation
      ⟨"Block1", ⟨167772160, 30⟩, [], [⟨"r1", ⟨167772160, 31⟩, "user1", 0, "wait"⟩]⟩ []
      ⟨30, false, true⟩ = Except.error AllocError.valueError ∧
    create_block_reservation
      ⟨"Block1", ⟨167772160, 30⟩, [], [⟨"r1", ⟨167772160, 31⟩, "user1", 0, "wait"⟩]⟩ []
      ⟨30, true, true⟩ = Except.error AllocError.valueError ∧
    create_block_reservation
      ⟨"Block1", ⟨167772160, 30⟩, [], [⟨"r1", ⟨167772160, 31⟩, "user1", 0, "wait"⟩]⟩ []
      ⟨30, false, false⟩ = Except.error AllocError.exhausted ∧
    create_block_reservation
      ⟨"Block1", ⟨167772160, 30⟩, [], [⟨"r1", ⟨167772160, 31⟩, "user1", 0, "wait"⟩]⟩ []
      ⟨30, true, false⟩ = Except.error AllocError.exhausted :=
  ⟨rfl, rfl, rfl, rfl⟩

theorem selectSubnet_ne_none {l : List Cidr} (hl : l ≠ []) (rev : Bool) :
    selectSubnet l rev ≠ none := by
  unfold selectSubnet
  by_cases hr : rev
  · rw [if_pos hr, List.getLast?_eq_getLast l hl]; exact Option.some_ne_none _
  · rw [if_neg hr, List.head?_eq_head hl]; exact Option.some_ne_none _

theorem multiLoopGo_some (space : List Block) (vnetList : List VNetData)
    (req : BlockCIDRReq) (v : String × Cidr) :
    ∀ bs : List String, multiLoopGo space vnetList req (some v) bs = Except.ok (some v) := by
  intro bs
  induction bs with
  | nil => rfl
  | cons b rest ih => rw [multiLoopGo]; exact ih

/-- Bridge between the embedded multi-block loop (plus its final
subnetting step) and the spec-side first-fit recursion, for block-name
lists whose names all resolve and whose evaluation never hits the
`smallest_cidr` `ValueError`. -/
theorem multiLoop_firstFit (space : List Block) (vnetList : List VNetData)
    (req : SpaceCIDRReq) :
    ∀ bs : List String,
      (∀ b ∈ bs, (space.find? (fun x => strLower x.name == strLower b)).isSome) →
      (∀ b ∈ bs, ∀ tb, space.find? (fun x => strLower x.name == strLower b) = some tb →
        pickAvailable (iterCidrs (availableSet tb.cidr (blockAllCidrs vnetList tb)))
          req.toBlockReq ≠ Except.error AllocError.valueError) →
      (match multiLoopGo space vnetList req.toBlockReq none bs with
       | Except.error e => Except.error e
       | Except.ok none => Except.error AllocError.exhausted
       | Except.ok (some (name, available_block)) =>
         match selectSubnet (subnetList available_block req.size) req.reverse_search with
         | some next_cidr => Except.ok (name, next_cidr)
         | none => Except.error AllocError.indexError) =
      (match firstFitAllocation space vnetList req bs with
       | some (n, c) => Except.ok ((n : String), c)
       | none => Except.error AllocError.exhausted) := by
  intro bs
  induction bs with
  | nil => intro _ _; rfl
  | cons b rest ih =>
    intro hval hnc
    rw [multiLoopGo, firstFitAllocation]
    cases hf : space.find? (fun x => strLower x.name == strLower b) with
    | none =>
      have := hval b (List.mem_cons_self b rest)
      rw [hf] at this
      cases this
    | some tb =>
      dsimp only
      cases hp : pickAvailable
          (iterCidrs (availableSet tb.cidr (blockAllCidrs vnetList tb))) req.toBlockReq with
      | ok ab =>
        dsimp only
        rw [multiLoopGo_some]
        unfold create_block_reservation allocateCidr
        rw [hp]
        dsimp only [SpaceCIDRReq.toBlockReq]
        cases hsel : selectSubnet (subnetList ab req.size) req.reverse_search with
        | none => exact absurd hsel (selectSubnet_ne_none (subnetList_ne_nil _ _) _)
        | some next_cidr => rfl
      | error e =>
        cases e with
        | valueError => exact absurd hp (hnc b (List.mem_cons_self b rest) tb hf)
        | exhausted =>
          dsimp only
          unfold create_block_reservation allocateCidr
          rw [hp]
          exact ih (fun x hx => hval x (List.mem_cons_of_mem b hx))
            (fun x hx => hnc x (List.mem_cons_of_mem b hx))
        | indexError =>
          dsimp only
          unfold create_block_reservation allocateCidr
          rw [hp]
          exact ih (fun x hx => hval x (List.mem_cons_of_mem b hx))
            (fun x hx => hnc x (List.mem_cons_of_mem b hx))
        | invalidBlocks =>
          dsimp only
          unfold create_block_reservation allocateCidr
          rw [hp]
          exact ih (fun x hx => hval x (List.mem_cons_of_mem b hx))
            (fun x hx => hnc x (List.mem_cons_of_mem b hx))
        | noneTypeFault =>
          dsimp only
          unfold create_block_reservation allocateCidr
          rw [hp]
          exact ih (fun x hx => hval x (List.mem_cons_of_mem b hx))
            (fun x hx => hnc x (List.mem_cons_of_mem b hx))

/-- C3 (amended): for the multi-block allocation operation given an
ordered list of valid block names, provided no evaluated block's
candidate selection raises the uncaught `smallest_cidr` `ValueError`,
the blocks are evaluated in the given order, the consumed set is
recomputed fresh for each block from that block's own clipped
attachment prefixes and own reservations (definitionally, via
`blockAllCidrs` applied to each block inside `firstFitAllocation`),
and the result is exactly that of the first block in the list whose
own single-block allocation is non-exhausted, with no further block
considered once one succeeds. -/
theorem create_multi_block_first_fit (space : List Block) (vnetList : List VNetData)
    (req : SpaceCIDRReq)
    (hv : req.blocks.all (fun b => space.any (fun x => x.name == b)) = true)
    (hnc : ∀ b ∈ req.blocks, ∀ tb,
      space.find? (fun x => strLower x.name == strLower b) = some tb →
      pickAvailable (iterCidrs (availableSet tb.cidr (blockAllCidrs vnetList tb)))
        req.toBlockReq ≠ Except.error AllocError.valueError) :
    create_multi_block_reservation space vnetList req =
      match firstFitAllocation space vnetList req req.blocks with
      | some (n, c) => Except.ok (n, c)
      | none => Except.error AllocError.exhausted := by
  have hval : ∀ b ∈ req.blocks, (space.find? (fun x => strLower x.name == strLower b)).isSome := by
    intro b hb
    rw [List.all_eq_true] at hv
    have hany := hv b hb
    rw [List.any_eq_true] at hany
    obtain ⟨x, hxmem, hxname⟩ := hany
    rw [List.find?_isSome]
    refine ⟨x, hxmem, ?_⟩
    rw [beq_iff_eq] at hxname ⊢
    rw [hxname]
  unfold create_multi_block_reservation
  rw [if_pos hv]
  exact multiLoop_firstFit space vnetList req req.blocks hval hnc

/-- Witness for C3 at a concrete input: a single free 10.0.1.0/30
block requested by name. -/
theorem create_multi_block_first_fit_witness :
    create_multi_block_reservation [⟨"b2", ⟨167772416, 30⟩, [], []⟩] []
        ⟨["b2"], 30, false, false⟩ =
      match firstFitAllocation [⟨"b2", ⟨167772416, 30⟩, [], []⟩] []
          ⟨["b2"], 30, false, false⟩ ["b2"] with
      | some (n, c) => Except.ok (n, c)
      | none => Except.error AllocError.exhausted := by
  refine create_multi_block_first_fit _ _ _ (by decide) ?_
  intro b hb tb hf
  have hb2 : b = "b2" := List.mem_singleton.mp hb
  subst hb2
  have hfind : List.find? (fun x => strLower x.name == strLower "b2")
      [(⟨"b2", ⟨167772416, 30⟩, [], []⟩ : Block)] = some ⟨"b2", ⟨167772416, 30⟩, [], []⟩ := rfl
  rw [hfind] at hf
  cases hf
  decide

/-- C3 counterexample to the claim as stated: the first requested
block 10.0.0.0/30 is fully consumed, the second 10.0.1.0/30 would
yield a non-exhausted allocation, yet with `smallest_cidr = true` the
multi-block call aborts with the uncaught `ValueError` instead of
creating the reservation in the second block. -/
theorem create_multi_block_value_error_counterexample :
    create_multi_block_reservation
        [⟨"b1", ⟨167772160, 30⟩, [], [⟨"r1", ⟨167772160, 30⟩, "u", 0, "wait"⟩]⟩,
         ⟨"b2", ⟨167772416, 30⟩, [], []⟩] []
        ⟨["b1", "b2"], 30, false, true⟩ = Except.error AllocError.valueError ∧
    create_block_reservation ⟨"b2", ⟨167772416, 30⟩, [], []⟩ [] ⟨30, false, true⟩ =
      Except.ok ⟨167772416, 30⟩ :=
  ⟨rfl, rfl⟩

/-- C6: for every reservation-deletion request by a non-admin caller
whose (duplicate-free, all-existing) id list targets at least one
reservation not owned by the caller, the whole operation fails with
`PermissionError` — an error result means nothing is written, so no
reservation is removed, including those the caller does own; the
duplicate, existence and ownership validations all precede the removal
loop in `delete_block_reservations`. -/
theorem delete_block_reservations_permission (resv : List Reservation) (req : List String)
    (user_name : String)
    (h2 : req.dedup.length = req.length)
    (h3 : ∀ e ∈ req, e ∈ resv.map (fun o => o.id))
    (h4 : ∃ x ∈ resv, x.id ∈ req ∧ x.userId ≠ user_name) :
    delete_block_reservations resv req user_name false =
      Except.error ApiError.permissionError := by
  have hall : req.all (fun elem => (resv.map (fun o => o.id)).contains elem) = true := by
    rw [List.all_eq_true]
    intro e he
    exact List.elem_iff.mpr (h3 e he)
  have hfilter : resv.filter (fun x => req.contains x.id && x.userId != user_name) ≠ [] := by
    obtain ⟨x, hxmem, hxid, hxuser⟩ := h4
    apply List.ne_nil_of_mem (a := x)
    rw [List.mem_filter, Bool.and_eq_true]
    exact ⟨hxmem, List.elem_iff.mpr hxid, bne_iff_ne.mpr hxuser⟩
  have hc1 : ¬ ((req.dedup.length != req.length) = true) := by simp [h2]
  have hc2 : ¬ ((!req.all (fun elem => (resv.map (fun o => o.id)).contains elem)) = true) := by
    intro hcon
    rw [Bool.not_eq_true'] at hcon
    rw [hcon] at hall
    simp at hall
  have hc3 : (!false &&
      !(resv.filter (fun x => req.contains x.id && x.userId != user_name)).isEmpty) = true := by
    simp only [Bool.not_false, Bool.true_and, Bool.not_eq_true']
    rw [← Bool.not_eq_true, List.isEmpty_iff]
    exact hfilter
  simp only [delete_block_reservations]
  rw [if_neg hc1, if_neg hc2, if_pos hc3]

/-- Witness for C6 at the spec's Scenario E: reservations A (owned by
the caller) and B (owned by another user), non-admin caller deleting
both. -/
theorem delete_block_reservations_permission_witness :
    delete_block_reservations
      [⟨"A", ⟨167772160, 32⟩, "caller", 0, "wait"⟩,
       ⟨"B", ⟨167772161, 32⟩, "other", 0, "wait"⟩]
      ["A", "B"] "caller" false = Except.error ApiError.permissionError :=
  delete_block_reservations_permission _ _ _ (by decide) (by decide)
    ⟨⟨"B", ⟨167772161, 32⟩, "other", 0, "wait"⟩, by decide, by decide, by decide⟩

/-- Helper: the names appended by `create_space` preserve the
case-insensitive uniqueness invariant. -/
theorem create_space_preserves_ci_unique (spaces : List Space) (name desc : String)
    (spaces2 : List Space)
    (h1 : spaceNamesCIUnique spaces)
    (h2 : create_space spaces name desc = Except.ok spaces2) :
    spaceNamesCIUnique spaces2 := by
  unfold create_space at h2
  cases hfd : spaces.find? (fun x => strLower x.name == strLower name) with
  | some y => rw [hfd] at h2; cases h2
  | none =>
    rw [hfd] at h2
    cases h2
    unfold spaceNamesCIUnique at h1 ⊢
    rw [List.map_append, List.nodup_append]
    refine ⟨h1, List.nodup_singleton _, ?_⟩
    rw [List.find?_eq_none] at hfd
    intro a ha hb
    rw [List.mem_map] at ha
    obtain ⟨x, hx, hxa⟩ := ha
    rw [List.map_cons, List.map_nil, List.mem_singleton] at hb
    exact hfd x hx (beq_iff_eq.mpr (by rw [hxa, hb]))

/-- C7 counterexample to the claim as stated: renaming space `alpha`
to `BETA` through the patch endpoint succeeds (only the name format is
validated) and leaves two spaces whose names are case-insensitively
equal, violating the uniqueness invariant the claim asserts for every
successful mutation. -/
theorem update_space_ci_unique_counterexample :
    spaceNamesCIUnique [⟨"alpha", "", []⟩, ⟨"beta", "", []⟩] ∧
    update_space [⟨"alpha", "", []⟩, ⟨"beta", "", []⟩] "alpha" "BETA" =
      Except.ok [⟨"BETA", "", []⟩, ⟨"beta", "", []⟩] ∧
    ¬ spaceNamesCIUnique [⟨"BETA", "", []⟩, ⟨"beta", "", []⟩] :=
  ⟨by decide, rfl, by decide⟩

/-- C7 (amended): creating a space preserves case-insensitive
uniqueness of space names within the tenant, because `create_space`
rejects case-insensitive duplicates; renaming via `update_space` is
validated for name format only (no uniqueness re-check), so a
successful rename can break the invariant, and `create_block` checks
only CIDR overlap, never block-name uniqueness. -/
theorem create_space_ci_unique_invariant (spaces : List Space) (name desc : String)
    (spaces2 : List Space)
    (h1 : spaceNamesCIUnique spaces)
    (h2 : create_space spaces name desc = Except.ok spaces2) :
    spaceNamesCIUnique spaces2 :=
  create_space_preserves_ci_unique spaces name desc spaces2 h1 h2

/-- Witness for the amended C7 at a concrete input. -/
theorem create_space_ci_unique_invariant_witness :
    spaceNamesCIUnique [⟨"alpha", "", []⟩, ⟨"gamma", "g", []⟩] :=
  create_space_ci_unique_invariant [⟨"alpha", "", []⟩] "gamma" "g" _ (by decide) rfl

/-- C8: for every successful `create_block` call, the new block's CIDR
range is disjoint from the range of every existing sibling block;
consequently a pairwise-disjoint block list stays pairwise disjoint
(and blocks are only ever added by this endpoint). -/
theorem create_block_disjoint (blocks : List Block) (name : String) (cidr : Cidr)
    (blocks2 : List Block)
    (hpair : List.Pairwise (fun a b => ∀ x ∈ cidrSet a.cidr, x ∉ cidrSet b.cidr) blocks)
    (hok : create_block blocks name cidr = Except.ok blocks2) :
    (∀ b ∈ blocks, ∀ x ∈ cidrSet cidr, x ∉ cidrSet b.cidr) ∧
    List.Pairwise (fun a b => ∀ x ∈ cidrSet a.cidr, x ∉ cidrSet b.cidr) blocks2 := by
  simp only [create_block] at hok
  split at hok
  · cases hok
  · rename_i hcond
    cases hok
    have hdisj : ∀ b ∈ blocks, ∀ x ∈ cidrSet cidr, x ∉ cidrSet b.cidr := by
      intro b hb x hx hxb
      apply hcond
      rw [decide_eq_true_iff]
      refine ⟨x, Finset.mem_inter.mpr ⟨hx, ?_⟩⟩
      exact cidrSet_subset_ipSet (List.mem_map.mpr ⟨b, hb, rfl⟩) hxb
    refine ⟨hdisj, ?_⟩
    rw [List.pairwise_append]
    refine ⟨hpair, List.pairwise_singleton _ _, ?_⟩
    intro a ha b hb
    rw [List.mem_singleton] at hb
    subst hb
    intro x hx hxc
    exact hdisj a ha x hxc hx

/-- Witness for C8 at a concrete input: adding disjoint 10.0.0.4/30
next to 10.0.0.0/30. -/
theorem create_block_disjoint_witness :
    List.Pairwise (fun (a b : Block) => ∀ x ∈ cidrSet a.cidr, x ∉ cidrSet b.cidr)
      [⟨"b1", ⟨167772160, 30⟩, [], []⟩, ⟨"b2", ⟨167772164, 30⟩, [], []⟩] :=
  (create_block_disjoint [⟨"b1", ⟨167772160, 30⟩, [], []⟩] "b2" ⟨167772164, 30⟩ _
    (by simp) rfl).2

/-- C9 counterexample to the claim as stated: a block 10.0.0.0/28 with
vNet `v1` attached (clipped prefix 10.0.0.4/30); attaching `v2`, whose
prefixes are 10.0.0.0/30 and 10.0.0.4/30, succeeds because only the
first in-block prefix 10.0.0.0/30 is checked for overlap — yet `v2`'s
second in-block prefix 10.0.0.4/30 coincides with (hence overlaps)
`v1`'s clipped prefix. -/
theorem create_block_vnet_overlap_counterexample :
    create_block_vnet ⟨"block1", ⟨167772160, 28⟩, [⟨"v1", true⟩], []⟩
        [⟨"v1", [⟨167772164, 30⟩]⟩, ⟨"v2", [⟨167772160, 30⟩, ⟨167772164, 30⟩]⟩] "v2" =
      Except.ok ⟨"block1", ⟨167772160, 28⟩, [⟨"v1", true⟩, ⟨"v2", true⟩], []⟩ ∧
    (⟨167772164, 30⟩ : Cidr) ∈ clippedPrefixes
        [⟨"v1", [⟨167772164, 30⟩]⟩, ⟨"v2", [⟨167772160, 30⟩, ⟨167772164, 30⟩]⟩]
        ⟨167772160, 28⟩ ⟨"v2", true⟩ ∧
    (⟨167772164, 30⟩ : Cidr) ∈ clippedPrefixes
        [⟨"v1", [⟨167772164, 30⟩]⟩, ⟨"v2", [⟨167772160, 30⟩, ⟨167772164, 30⟩]⟩]
        ⟨167772160, 28⟩ ⟨"v1", true⟩ ∧
    (cidrSet (⟨167772164, 30⟩ : Cidr) ∩ cidrSet (⟨167772164, 30⟩ : Cidr)).Nonempty :=
  ⟨rfl, by decide, by decide, by decide⟩

/-- C9 (amended): attach-time validation checks only the first prefix
of the new network that lies within the block's range: for every
successful `create_block_vnet`, that first in-block prefix
(`target_cidr`) is disjoint from every clipped prefix of every
already-attached network; further in-block prefixes of the new network
are not validated. -/
theorem create_block_vnet_first_prefix_disjoint (tb : Block) (vnetList : List VNetData)
    (vnetId : String) (tb2 : Block)
    (hok : create_block_vnet tb vnetList vnetId = Except.ok tb2) :
    ∃ target_vnet,
      vnetList.find? (fun x => strLower x.id == strLower vnetId) = some target_vnet ∧
      ∃ target_cidr,
        target_vnet.prefixes.find? (fun x => cidrIn x tb.cidr) = some target_cidr ∧
        ∀ d ∈ clippedVnetCidrs vnetList tb, ∀ x ∈ cidrSet target_cidr, x ∉ cidrSet d := by
  unfold create_block_vnet at hok
  split at hok
  · cases hok
  · cases hfd : vnetList.find? (fun x => strLower x.id == strLower vnetId) with
    | none => rw [hfd] at hok; cases hok
    | some tv =>
      rw [hfd] at hok
      dsimp only at hok
      cases hfc : tv.prefixes.find? (fun x => cidrIn x tb.cidr) with
      | none => rw [hfc] at hok; cases hok
      | some tc =>
        rw [hfc] at hok
        dsimp only at hok
        split at hok
        · cases hok
        · rename_i hcond
          refine ⟨tv, rfl, tc, hfc, ?_⟩
          intro d hd x hx hxd
          apply hcond
          rw [decide_eq_true_iff]
          exact ⟨x, Finset.mem_inter.mpr ⟨cidrSet_subset_ipSet hd hxd, hx⟩⟩

/-- Witness for the amended C9 at the concrete counterexample input
(where the attach succeeds). -/
theorem create_block_vnet_first_prefix_disjoint_witness :
    ∃ target_vnet,
      List.find? (fun x => strLower x.id == strLower "v2")
          ([⟨"v1", [⟨167772164, 30⟩]⟩, ⟨"v2", [⟨167772160, 30⟩, ⟨167772164, 30⟩]⟩] :
            List VNetData) =
        some target_vnet ∧
      ∃ target_cidr,
        target_vnet.prefixes.find?
            (fun x => cidrIn x (⟨"block1", ⟨167772160, 28⟩, [⟨"v1", true⟩], []⟩ : Block).cidr) =
          some target_cidr ∧
        ∀ d ∈ clippedVnetCidrs
            [⟨"v1", [⟨167772164, 30⟩]⟩, ⟨"v2", [⟨167772160, 30⟩, ⟨167772164, 30⟩]⟩]
            ⟨"block1", ⟨167772160, 28⟩, [⟨"v1", true⟩], []⟩,
          ∀ x ∈ cidrSet target_cidr, x ∉ cidrSet d :=
  create_block_vnet_first_prefix_disjoint ⟨"block1", ⟨167772160, 28⟩, [⟨"v1", true⟩], []⟩
    [⟨"v1", [⟨167772164, 30⟩]⟩, ⟨"v2", [⟨167772160, 30⟩, ⟨167772164, 30⟩]⟩] "v2"
    ⟨"block1", ⟨167772160, 28⟩, [⟨"v1", true⟩, ⟨"v2", true⟩], []⟩ rfl

/-- C10: for every `delete_block` request in which the given block
name matches a stored block's name case-insensitively but not by exact
string equality, the operation removes nothing and never completes
successfully: the case-insensitive lookup finds the block (so the
result is not the not-found rejection), yet the removal index —
computed by exact name comparison — is `None`, and when the emptiness
check passes (e.g. `force = true`) the deletion step faults
(`del target_space['blocks'][None]`, a `TypeError`). -/
theorem delete_block_ci_mismatch (blocks : List Block) (blockName : String) (force : Bool)
    (h1 : ∃ b ∈ blocks, strLower b.name = strLower blockName)
    (h2 : ∀ b ∈ blocks, b.name ≠ blockName) :
    (∀ l, delete_block blocks blockName force ≠ Except.ok l) ∧
    delete_block blocks blockName force ≠ Except.error ApiError.invalidBlock ∧
    (force = true → delete_block blocks blockName force = Except.error ApiError.noneIndexFault) := by
  have hidx : blocks.findIdx? (fun item => item.name == blockName) = none := by
    rw [List.findIdx?_eq_none_iff]
    intro x hx
    simp [h2 x hx]
  cases hfd : blocks.find? (fun x => strLower x.name == strLower blockName) with
  | none =>
    exfalso
    obtain ⟨b, hb, hbe⟩ := h1
    rw [List.find?_eq_none] at hfd
    exact hfd b hb (beq_iff_eq.mpr hbe)
  | some tb =>
    have heval : delete_block blocks blockName force =
        if !force && (0 < tb.vnets.length || 0 < tb.resv.length) then
          Except.error ApiError.nonEmptyError
        else Except.error ApiError.noneIndexFault := by
      unfold delete_block
      rw [hfd]
      dsimp only
      rw [hidx]
    refine ⟨?_, ?_, ?_⟩
    · intro l
      rw [heval]
      split <;> simp
    · rw [heval]
      split <;> simp
    · intro hforce
      rw [heval, hforce]
      simp

/-- Witness for C10 at a concrete input: block stored as `Block1`,
deletion requested as `block1` with `force = true`. -/
theorem delete_block_ci_mismatch_witness :
    delete_block [⟨"Block1", ⟨167772160, 24⟩, [], []⟩] "block1" true =
      Except.error ApiError.noneIndexFault :=
  (delete_block_ci_mismatch [⟨"Block1", ⟨167772160, 24⟩, [], []⟩] "block1" true
    ⟨⟨"Block1", ⟨167772160, 24⟩, [], []⟩, by decide, by decide⟩ (by decide)).2.2 rfl

end Ipam
